import Mathlib

/-!
Verification development for the IMAP-Migrator repository
(`src/imap_migrator.py`).

The program is a sequential orchestrator: it parses a CSV description of
mailbox migrations and, per mailbox, builds command lines with
`shlex.split`, invokes external tools through `subprocess.call`, and logs
masked command lines.  The shallow embedding below models:

* `shlex.split` in POSIX mode (the exact state machine of the Python
  standard library with `whitespace_split=True`), over `List Char`;
* the relevant `os.path` operations (`join`, `abspath`, `relpath`
  restricted to paths below the walked root, which is the only case
  `os.walk` produces) and Python string operations (`endswith`, `[:-5]`,
  `replace("@", "_at_")`, truthiness);
* the data model (`Mailbox`, `Migration`, one CSV row) and
  `parse_mailboxes_csv`, `list_mailboxes`, `backup_mailboxes`,
  `restore_mailboxes` as pure functions.  External effects are explicit
  parameters: `subprocess.call` is a function from the argument list to
  an exit status, the filesystem is a pair of an existence predicate and
  an `os.walk` result, and every function returns its success list
  together with a trace of log events, executed commands and created
  directories.  A raised exception (`shlex` hitting an unbalanced quote)
  makes the whole run `none`, mirroring Python unwinding.
-/

/-- Character classes distinguished by the Python `shlex` lexer in POSIX
mode: whitespace, the two quote characters, the escape character, and
everything else. -/
inductive CClass
  | ws
  | squote
  | dquote
  | backslash
  | plain
deriving DecidableEq

/-- Classify one character the way `shlex` does (`whitespace = " \t\r\n"`,
`quotes = "'\""`, `escape = "\\"`). -/
def charClass (c : Char) : CClass :=
  if c = ' ' ∨ c = '\t' ∨ c = '\r' ∨ c = '\n' then CClass.ws
  else if c = '\'' then CClass.squote
  else if c = '"' then CClass.dquote
  else if c = '\\' then CClass.backslash
  else CClass.plain

/-- States of the `shlex` token reader: between tokens, inside a bare
word, inside single or double quotes, and the two escape states (escape
seen outside quotes / inside double quotes). -/
inductive SState
  | blank
  | word
  | squote
  | dquote
  | escW
  | escD
deriving DecidableEq

/-- Close the current token: `shlex` emits it if it is nonempty or if any
part of it was quoted (so `""` yields an empty argument). -/
def emitTok (tok : List Char) (quoted : Bool) (acc : List (List Char)) :
    List (List Char) :=
  if quoted then acc ++ [tok]
  else if tok = [] then acc else acc ++ [tok]

/-- One run of the `shlex.split` state machine (POSIX rules,
`whitespace_split=True`): `none` models the `ValueError` raised on an
unbalanced quote or a trailing escape character. -/
def shlexRun : SState → List Char → List Char → Bool → List (List Char) →
    Option (List (List Char))
  | SState.blank, [], _, _, acc => some acc
  | SState.word, [], tok, q, acc => some (emitTok tok q acc)
  | SState.squote, [], _, _, _ => none
  | SState.dquote, [], _, _, _ => none
  | SState.escW, [], _, _, _ => none
  | SState.escD, [], _, _, _ => none
  | SState.blank, c :: cs, tok, q, acc =>
    match charClass c with
    | CClass.ws => shlexRun SState.blank cs [] false acc
    | CClass.squote => shlexRun SState.squote cs tok true acc
    | CClass.dquote => shlexRun SState.dquote cs tok true acc
    | CClass.backslash => shlexRun SState.escW cs tok q acc
    | CClass.plain => shlexRun SState.word cs (tok ++ [c]) q acc
  | SState.word, c :: cs, tok, q, acc =>
    match charClass c with
    | CClass.ws => shlexRun SState.blank cs [] false (emitTok tok q acc)
    | CClass.squote => shlexRun SState.squote cs tok true acc
    | CClass.dquote => shlexRun SState.dquote cs tok true acc
    | CClass.backslash => shlexRun SState.escW cs tok q acc
    | CClass.plain => shlexRun SState.word cs (tok ++ [c]) q acc
  | SState.squote, c :: cs, tok, q, acc =>
    if c = '\'' then shlexRun SState.word cs tok q acc
    else shlexRun SState.squote cs (tok ++ [c]) q acc
  | SState.dquote, c :: cs, tok, q, acc =>
    match charClass c with
    | CClass.dquote => shlexRun SState.word cs tok q acc
    | CClass.backslash => shlexRun SState.escD cs tok q acc
    | _ => shlexRun SState.dquote cs (tok ++ [c]) q acc
  | SState.escW, c :: cs, tok, q, acc => shlexRun SState.word cs (tok ++ [c]) q acc
  | SState.escD, c :: cs, tok, q, acc =>
    if c = '"' ∨ c = '\\' then shlexRun SState.dquote cs (tok ++ [c]) q acc
    else shlexRun SState.dquote cs (tok ++ ['\\', c]) q acc

/-- Model of Python `shlex.split` (as used at every call site of the
program: POSIX mode, whitespace splitting, no comments). -/
def shlexSplit (s : String) : Option (List String) :=
  (shlexRun SState.blank s.data [] false []).map
    (fun toks => toks.map (fun t => String.mk t))

/-- A nonempty string of characters that shlex treats as ordinary word
characters (no whitespace, no quotes, no backslash): substituted into an
unquoted hole of a command template it stays exactly one token. -/
def PlainTok (s : String) : Prop :=
  s.data ≠ [] ∧ ∀ c ∈ s.data, charClass c = CClass.plain

/-- A string free of double quotes and backslashes: substituted into a
double-quoted hole of a command template it stays exactly one token. -/
def DqSafe (s : String) : Prop :=
  ∀ c ∈ s.data, charClass c ≠ CClass.dquote ∧ charClass c ≠ CClass.backslash

instance (s : String) : Decidable (PlainTok s) := by
  unfold PlainTok
  infer_instance

instance (s : String) : Decidable (DqSafe s) := by
  unfold DqSafe
  infer_instance

/-- Python `str.endswith`. -/
def pyEndsWith (s suf : String) : Bool :=
  suf.data.isSuffixOf s.data

/-- Python slicing `s[:-n]` for `n > 0`: all characters but the last `n`
(empty when the string is no longer than `n`). -/
def pySliceDropRight (s : String) (n : Nat) : String :=
  String.mk (s.data.take (s.data.length - n))

/-- Python `str.replace("@", "_at_")`: every occurrence of `@` replaced
by `_at_` (the per-user backup directory name mapping). -/
def pyReplaceAt (u : String) : String :=
  String.mk (u.data.flatMap (fun c => if c = '@' then ['_', 'a', 't', '_'] else [c]))

/-- Model of `os.path.join a b`, without the normalization Python also
does not do there: `b` absolute wins, otherwise concatenate with exactly
one separator. -/
def osJoin (a b : String) : String :=
  if b.data.head? = some '/' then b
  else if a = "" then b
  else if a.data.getLast? = some '/' then String.mk (a.data ++ b.data)
  else String.mk (a.data ++ '/' :: b.data)

/-- Model of `os.path.abspath` relative to a fixed working directory,
without `normpath` (no `.`/`..` components occur in the program's
paths). -/
def osAbspath (cwd p : String) : String :=
  if p.data.head? = some '/' then p else osJoin cwd p

/-- Roots yielded by `os.walk top` are `top` itself and its
subdirectories; we represent a yielded root by its path relative to
`top` (`""` for `top` itself) and recover the absolute root here. -/
def walk_root (top rel : String) : String :=
  if rel = "" then top else osJoin top rel

/-- Path of a walked file relative to the walked top directory: this is
`os.path.relpath(os.path.join(root, filename), top)` for a root yielded
by `os.walk top` at relative position `rel` (the only shape of arguments
the program ever passes to `relpath`). -/
def rel_under (rel filename : String) : String :=
  if rel = "" then filename else osJoin rel filename

/-- Python negative-index assignment `l[-k] = "******"` used to mask the
password token of a command line before logging it. -/
def maskNeg (l : List String) (k : Nat) : List String :=
  l.set (l.length - k) "******"

/-- Embedding of the `Mailbox` class: one endpoint of a migration.  The
port is kept as the string the CSV loader produces, exactly as in the
source (ports flow unparsed from the CSV into the command lines). -/
structure Mailbox where
  type_ : String
  username : String
  password : String
  host : String
  port : String
  use_ssl : Bool
deriving DecidableEq

/-- Embedding of the `Migration` class: an old (source) and a new
(destination) mailbox. -/
structure Migration where
  old : Mailbox
  new : Mailbox
deriving DecidableEq

/-- Embedding of `getattr(migration, type_)` as used by
`list_mailboxes`; the program only ever passes `"old"` or `"new"`. -/
def Migration.attr (m : Migration) (type_ : String) : Mailbox :=
  if type_ = "old" then m.old else m.new

/-- One CSV row as produced by `csv.DictReader` with the ten fixed field
names.  The `port` and `ssl` fields are `Option String` because their
absence (a short row gives `None`) is treated specially by the loader;
the six identity-copied fields are modelled for rows where they are
present. -/
structure Row where
  old_username : String
  old_pass : String
  old_host : String
  old_port : Option String
  old_ssl : Option String
  new_username : String
  new_pass : String
  new_host : String
  new_port : Option String
  new_ssl : Option String
deriving DecidableEq

/-- Python `str.lower`, character by character (every string whose
lowercase form is `"false"` is ASCII, so the ASCII mapping suffices). -/
def pyLower (s : String) : String :=
  String.mk (s.data.map Char.toLower)

/-- Embedding of the security-flag translation (lines 146-147):
`False if row[k] is not None and row[k].lower() == "false" else True`. -/
def parse_ssl : Option String → Bool
  | none => true
  | some s => if pyLower s = "false" then false else true

/-- Embedding of the port defaulting (lines 150-159): an absent or empty
port field (Python falsy) becomes `"993"` or `"143"` according to the
already-translated security flag; anything else passes through. -/
def default_port : Option String → Bool → String
  | none, ssl => if ssl then "993" else "143"
  | some p, ssl => if p = "" then (if ssl then "993" else "143") else p

/-- Body of the CSV loop (lines 144-164): translate the two security
flags, default the two ports, and build the `Migration` value. -/
def row_to_migration (r : Row) : Migration :=
  let old_ssl := parse_ssl r.old_ssl
  let new_ssl := parse_ssl r.new_ssl
  Migration.mk
    (Mailbox.mk "old" r.old_username r.old_pass r.old_host
      (default_port r.old_port old_ssl) old_ssl)
    (Mailbox.mk "new" r.new_username r.new_pass r.new_host
      (default_port r.new_port new_ssl) new_ssl)

/-- Embedding of `parse_mailboxes_csv` (lines 126-169) after the file has
been read into rows: per row build the migration and append it when the
filter is the literal `["all"]` list or the old username is a member of
the filter list (line 166). -/
def parse_mailboxes_csv (rows : List Row) (mailboxes_filter : List String) :
    List Migration :=
  rows.foldl
    (fun migrations r =>
      if mailboxes_filter = ["all"] ∨
          (row_to_migration r).old.username ∈ mailboxes_filter then
        migrations ++ [row_to_migration r]
      else migrations)
    []

/-- Log events emitted by the program (`logger.info`, `logger.debug` of a
masked argument list, `logger.error`). -/
inductive LogEvent
  | info (msg : String)
  | debug (args : List String)
  | error (msg : String)
deriving DecidableEq

/-- Observable trace of one run: log events in order, argument lists
passed to `subprocess.call` in order, and directories created.  (The raw
`print(return_code)` of the restore loop adds nothing the exit statuses
do not already determine and is not recorded.) -/
structure Trace where
  logs : List LogEvent
  calls : List (List String)
  dirs : List String
deriving DecidableEq

/-- Empty trace. -/
def Trace.nil : Trace := Trace.mk [] [] []

/-- Concatenation of traces of sequential program fragments. -/
def Trace.append (a b : Trace) : Trace :=
  Trace.mk (a.logs ++ b.logs) (a.calls ++ b.calls) (a.dirs ++ b.dirs)

/-- Command template of `list_mailboxes` (lines 178-181):
`imapbackup/imapgrab.py -l -s {host} -u "{username}" -p "{password}"`. -/
def list_cmd_str (mb : Mailbox) : String :=
  "imapbackup/imapgrab.py -l -s " ++ mb.host ++ " -u \"" ++ mb.username ++
    "\" -p \"" ++ mb.password ++ "\""

/-- Body of the `list_mailboxes` loop for one mailbox: log, split the
command, log the masked command (`cmdl[:-1] + ["******"]`), call, and
report whether the mailbox joins the success list. -/
def list_step (call : List String → Int) (mb : Mailbox) :
    Option (Option Mailbox × Trace) :=
  (shlexSplit (list_cmd_str mb)).map (fun cmdl =>
    ((if call cmdl = 0 then some mb else none),
      Trace.mk [LogEvent.info ("Listing mailbox " ++ mb.username),
                LogEvent.debug (cmdl.dropLast ++ ["******"])] [cmdl] []))

/-- Embedding of `list_mailboxes` (lines 172-189): process every
migration's mailbox of the requested role in order; an exit status of
zero appends the mailbox to the success list. -/
def list_mailboxes (call : List String → Int) (migrations : List Migration)
    (type_ : String) : Option (List Mailbox × Trace) :=
  match migrations with
  | [] => some ([], Trace.nil)
  | mg :: rest =>
    match list_step call (mg.attr type_) with
    | none => none
    | some (mbOk, tr) =>
      match list_mailboxes call rest type_ with
      | none => none
      | some (succ, tr2) =>
        some ((match mbOk with | some mb => mb :: succ | none => succ),
          tr.append tr2)

/-- Per-user backup directory created by `backup_mailboxes` (line 200):
`os.path.abspath(os.path.join(output_dir, username.replace("@", "_at_")))`. -/
def backup_user_output_dir (cwd output_dir username : String) : String :=
  osAbspath cwd (osJoin output_dir (pyReplaceAt username))

/-- Command template of `backup_mailboxes` (lines 207-210):
`imapbackup/imapgrab.py -v -d {ssl} -f "{output_dir}" -s "{host}" -u
"{username}" -p "{password}" -m "_ALL_"` with `{ssl}` either `-S` or
empty. -/
def backup_cmd_str (mb : Mailbox) (user_output_dir : String) : String :=
  "imapbackup/imapgrab.py -v -d " ++ (if mb.use_ssl then "-S" else "") ++
    " -f \"" ++ user_output_dir ++ "\" -s \"" ++ mb.host ++ "\" -u \"" ++
    mb.username ++ "\" -p \"" ++ mb.password ++ "\" -m \"_ALL_\""

/-- Body of the `backup_mailboxes` loop for one source mailbox: make the
per-user directory, split the command, log it with token `[-3]` (the
password) masked, call, and report success. -/
def backup_step (call : List String → Int) (cwd output_dir : String)
    (mb : Mailbox) : Option (Option Mailbox × Trace) :=
  (shlexSplit (backup_cmd_str mb (backup_user_output_dir cwd output_dir mb.username))).map
    (fun cmdl =>
      ((if call cmdl = 0 then some mb else none),
        Trace.mk [LogEvent.info ("Backing up mailbox " ++ mb.username),
                  LogEvent.debug (maskNeg cmdl 3)] [cmdl]
          [backup_user_output_dir cwd output_dir mb.username]))

/-- Embedding of `backup_mailboxes` (lines 192-220): create the output
root (`os.makedirs`), then process every migration's old mailbox in
order. -/
def backup_mailboxes (call : List String → Int) (cwd : String)
    (migrations : List Migration) (output_dir : String) :
    Option (List Mailbox × Trace) :=
  match migrations with
  | [] => some ([], Trace.mk [] [] [output_dir])
  | mg :: rest =>
    match backup_step call cwd output_dir mg.old with
    | none => none
    | some (mbOk, tr) =>
      match backup_mailboxes call cwd rest output_dir with
      | none => none
      | some (succ, tr2) =>
        some ((match mbOk with | some mb => mb :: succ | none => succ),
          (Trace.mk [] [] []).append (tr.append tr2))

/-- External world of `restore_mailboxes`: directory existence
(`os.path.exists`), the walk of a directory (`os.walk`, each yielded root
given by its path relative to the walked top together with its files in
yield order), the subprocess exit statuses, and the working directory
`os.path.abspath` resolves against. -/
structure RestoreEnv where
  pathExists : String → Bool
  walk : String → List (String × List String)
  call : List String → Int
  cwd : String

/-- Per-user backup directory searched by `restore_mailboxes` (line 230):
`os.path.join(backup_dir, old_username.replace("@", "_at_"))`. -/
def restore_user_backup_dir (backup_dir username : String) : String :=
  osJoin backup_dir (pyReplaceAt username)

/-- Command template of `restore_mailboxes` (lines 247-252):
`imap_upload/imap_upload.py --retry 3 {ssl} --host "{host}" --port {port}
--user "{username}" --password "{password}" --box "{box_path}"
"{mbox_file}"` with `{ssl}` either `--ssl` or empty. -/
def restore_cmd_str (m : Migration) (box_imap_path mbox_file : String) : String :=
  "imap_upload/imap_upload.py --retry 3 " ++
    (if m.new.use_ssl then "--ssl" else "") ++ " --host \"" ++ m.new.host ++
    "\" --port " ++ m.new.port ++ " --user \"" ++ m.new.username ++
    "\" --password \"" ++ m.new.password ++ "\" --box \"" ++ box_imap_path ++
    "\" \"" ++ mbox_file ++ "\""

/-- Upload of one walked file (lines 241-261): derive the IMAP folder
path (`relpath` from the per-user directory with the 5-character `.mbox`
suffix sliced off), split the command, log it with token `[-4]` (the
password) masked, and call the upload tool. -/
def restore_file_step (env : RestoreEnv) (m : Migration)
    (user_backup_dir rel filename : String) : Option (Trace × Int) :=
  (shlexSplit (restore_cmd_str m
      (pySliceDropRight (rel_under rel filename) 5)
      (osAbspath env.cwd (osJoin (walk_root user_backup_dir rel) filename)))).map
    (fun cmdl =>
      (Trace.mk [LogEvent.debug (maskNeg cmdl 4)] [cmdl] [], env.call cmdl))

/-- Inner loop of the restore walk: every file of one yielded root whose
name ends with `.mbox` is uploaded; the boolean collects whether all
uploads so far returned zero. -/
def restore_files (env : RestoreEnv) (m : Migration)
    (user_backup_dir rel : String) : List String → Option (Trace × Bool)
  | [] => some (Trace.nil, true)
  | f :: fs =>
    if pyEndsWith f ".mbox" then
      match restore_file_step env m user_backup_dir rel f with
      | none => none
      | some (tr, rc) =>
        match restore_files env m user_backup_dir rel fs with
        | none => none
        | some (tr2, ok2) => some (tr.append tr2, (decide (rc = 0) && ok2))
    else restore_files env m user_backup_dir rel fs

/-- Outer loop of the restore walk over all yielded roots. -/
def restore_walk_dirs (env : RestoreEnv) (m : Migration)
    (user_backup_dir : String) :
    List (String × List String) → Option (Trace × Bool)
  | [] => some (Trace.nil, true)
  | (rel, files) :: rest =>
    match restore_files env m user_backup_dir rel files with
    | none => none
    | some (tr, ok) =>
      match restore_walk_dirs env m user_backup_dir rest with
      | none => none
      | some (tr2, ok2) => some (tr.append tr2, (ok && ok2))

/-- Processing of one migration by `restore_mailboxes` (lines 226-264):
silently skip a pair with empty destination username or host; skip with
one error log a pair whose backup directory does not exist; otherwise
log, walk, upload every `.mbox` file, and succeed exactly when every
upload returned zero.  The first component tells whether the pair was
processed (reached the walk), the second whether it joins the success
list. -/
def restore_pair (env : RestoreEnv) (backup_dir : String) (m : Migration) :
    Option (Bool × Bool × Trace) :=
  if m.new.username = "" ∨ m.new.host = "" then some (false, false, Trace.nil)
  else if env.pathExists (restore_user_backup_dir backup_dir m.old.username) then
    match restore_walk_dirs env m
        (restore_user_backup_dir backup_dir m.old.username)
        (env.walk (restore_user_backup_dir backup_dir m.old.username)) with
    | none => none
    | some (tr, ok) =>
      some (true, ok,
        (Trace.mk [LogEvent.info ("Restoring old " ++ m.old.username ++
          " to new " ++ m.new.username)] [] []).append tr)
  else
    some (false, false,
      Trace.mk [LogEvent.error ("Could not find backup directory " ++
        restore_user_backup_dir backup_dir m.old.username ++
        ", skipping this mailbox.")] [] [])

/-- Success of one migration under `restore_mailboxes` (false when the
run raises before returning). -/
def restore_pair_ok (env : RestoreEnv) (backup_dir : String) (m : Migration) :
    Bool :=
  match restore_pair env backup_dir m with
  | some (_, ok, _) => ok
  | none => false

/-- Embedding of `restore_mailboxes` (lines 223-266): process every
migration in order, appending to the success list exactly the pairs all
of whose uploads returned zero. -/
def restore_mailboxes (env : RestoreEnv) (migrations : List Migration)
    (backup_dir : String) : Option (List Migration × Trace) :=
  match migrations with
  | [] => some ([], Trace.nil)
  | m :: rest =>
    match restore_pair env backup_dir m with
    | none => none
    | some (_, ok, tr) =>
      match restore_mailboxes env rest backup_dir with
      | none => none
      | some (succ, tr2) =>
        some ((if ok then m :: succ else succ), tr.append tr2)

/-- The argument lists appearing in `logger.debug` events of a trace, in
order. -/
def Trace.debugArgs (t : Trace) : List (List String) :=
  t.logs.filterMap
    (fun e => match e with | LogEvent.debug args => some args | _ => none)

/-- Concrete CSV row: old port left empty with security enabled, new port
explicit with security disabled. -/
def row_ex : Row :=
  Row.mk "alice@old.example" "pw1" "imap.old.example" none (some "true")
    "alice@new.example" "pw2" "imap.new.example" (some "1234") (some "FALSE")

/-- Concrete CSV row with a different username, used for filter tests. -/
def row_ex2 : Row :=
  Row.mk "bob" "pw3" "imap.old.example" (some "") none
    "bob" "pw4" "imap.new.example" none none

/-- Concrete migration with distinct field values. -/
def mig_ex : Migration :=
  Migration.mk (Mailbox.mk "old" "alice" "pw1" "imap.old.example" "993" true)
    (Mailbox.mk "new" "alice2" "pw2" "imap.new.example" "993" true)

/-- Concrete migration whose destination username is empty (backup-only
pair). -/
def mig_skip : Migration :=
  Migration.mk (Mailbox.mk "old" "carol" "pw5" "imap.old.example" "993" true)
    (Mailbox.mk "new" "" "pw6" "imap.new.example" "993" true)

/-- Concrete migration whose username equals its password: the secret
then also appears in the username token of the logged command line. -/
def mig_leak : Migration :=
  Migration.mk (Mailbox.mk "old" "sekret0" "sekret0" "h" "993" true)
    (Mailbox.mk "new" "u2" "pw2" "h2" "993" true)

/-- Concrete restore environment: every directory exists, the per-user
directory holds `INBOX.mbox`, a nested `INBOX/Sent.mbox` and a stray
`notes.txt`, and every upload succeeds. -/
def env_ok : RestoreEnv :=
  RestoreEnv.mk (fun _ => true)
    (fun _ => [("", ["INBOX.mbox"]), ("INBOX", ["Sent.mbox", "notes.txt"])])
    (fun _ => 0) "/cwd"

/-- Concrete restore environment with an empty filesystem walk. -/
def env_empty : RestoreEnv :=
  RestoreEnv.mk (fun _ => true) (fun _ => []) (fun _ => 0) "/cwd"

example : shlexSplit "a b  c" = some ["a", "b", "c"] := by decide
example : shlexSplit "a \"b c\" d" = some ["a", "b c", "d"] := by decide
example : shlexSplit "-u \"\" x" = some ["-u", "", "x"] := by decide
example : shlexSplit "a \"b" = none := by decide
example : shlexSplit "a\\ b 'c d'" = some ["a b", "c d"] := by decide
example : shlexSplit "\"a\\\"b\"" = some ["a\"b"] := by decide
example : shlexSplit "\"a\\xb\"" = some ["a\\xb"] := by decide
example : pyReplaceAt "a@b@c" = "a_at_b_at_c" := by decide
example : osJoin "backups" "u_at_h" = "backups/u_at_h" := by decide
example : pySliceDropRight "INBOX/Sent.mbox" 5 = "INBOX/Sent" := by decide
example : pyEndsWith "Sent.mbox" ".mbox" = true := by decide

theorem string_mk_data (s : String) : String.mk s.data = s := rfl

theorem trace_nil_append (t : Trace) : Trace.append Trace.nil t = t := rfl

theorem trace_append_nil (t : Trace) : Trace.append t Trace.nil = t := by
  cases t
  simp [Trace.append, Trace.nil]

theorem parse_foldl_general (f : List String) (rows : List Row)
    (init : List Migration) :
    rows.foldl
      (fun migrations r =>
        if f = ["all"] ∨ (row_to_migration r).old.username ∈ f then
          migrations ++ [row_to_migration r]
        else migrations)
      init
    = init ++ (rows.map row_to_migration).filter
        (fun m => decide (f = ["all"] ∨ m.old.username ∈ f)) := by
  induction rows generalizing init with
  | nil => simp
  | cons r rs ih =>
    by_cases h : f = ["all"] ∨ (row_to_migration r).old.username ∈ f
    · simp only [List.foldl_cons, List.map_cons, List.filter_cons, if_pos h]
      rw [ih]
      simp [h]
    · simp only [List.foldl_cons, List.map_cons, List.filter_cons, if_neg h]
      rw [ih]
      simp [h]

theorem parse_mailboxes_csv_eq_filter (rows : List Row) (f : List String) :
    parse_mailboxes_csv rows f =
      (rows.map row_to_migration).filter
        (fun m => decide (f = ["all"] ∨ m.old.username ∈ f)) := by
  have h := parse_foldl_general f rows []
  simpa [parse_mailboxes_csv] using h

/-- C1: for every parsed CSV row, an empty or absent port field defaults
to `"993"` when the (translated) security flag is enabled and `"143"`
when disabled, while a non-empty explicit port passes through unchanged,
independently for the old and the new descriptor. -/
theorem c1_port_defaulting (r : Row) :
    ((r.old_port = none ∨ r.old_port = some "") →
      (row_to_migration r).old.port =
        (if (row_to_migration r).old.use_ssl then "993" else "143"))
    ∧ (∀ p, r.old_port = some p → p ≠ "" → (row_to_migration r).old.port = p)
    ∧ ((r.new_port = none ∨ r.new_port = some "") →
      (row_to_migration r).new.port =
        (if (row_to_migration r).new.use_ssl then "993" else "143"))
    ∧ (∀ p, r.new_port = some p → p ≠ "" → (row_to_migration r).new.port = p) := by
  refine ⟨fun h => ?_, fun p hp hne => ?_, fun h => ?_, fun p hp hne => ?_⟩
  · rcases h with h | h <;> simp [row_to_migration, default_port, h]
  · simp [row_to_migration, default_port, hp, hne]
  · rcases h with h | h <;> simp [row_to_migration, default_port, h]
  · simp [row_to_migration, default_port, hp, hne]

theorem c1_port_defaulting_witness :
    (row_to_migration row_ex).old.port = "993"
    ∧ (row_to_migration row_ex).new.port = "1234" := by
  constructor
  · have h := (c1_port_defaulting row_ex).1 (Or.inl rfl)
    rw [h]
    decide
  · exact (c1_port_defaulting row_ex).2.2.2 "1234" rfl (by decide)

/-- C2: a security-flag field translates to disabled exactly when it is
present and its lowercased value is `"false"`; absence, emptiness or any
other value translates to enabled, independently for the old and the new
descriptor. -/
theorem c2_ssl_flag (r : Row) :
    ((row_to_migration r).old.use_ssl = false ↔
      ∃ s, r.old_ssl = some s ∧ pyLower s = "false")
    ∧ ((row_to_migration r).new.use_ssl = false ↔
      ∃ s, r.new_ssl = some s ∧ pyLower s = "false") := by
  constructor
  · cases h : r.old_ssl with
    | none => simp [row_to_migration, parse_ssl, h]
    | some s =>
      by_cases hs : pyLower s = "false" <;>
        simp [row_to_migration, parse_ssl, h, hs]
  · cases h : r.new_ssl with
    | none => simp [row_to_migration, parse_ssl, h]
    | some s =>
      by_cases hs : pyLower s = "false" <;>
        simp [row_to_migration, parse_ssl, h, hs]

/-- C3: the literal filter list `["all"]` retains every row; any other
filter list retains exactly the rows whose old username is a member,
preserving input order and duplicates (the result is the filtered map
over the rows in order). -/
theorem c3_name_filter (rows : List Row) (f : List String) :
    parse_mailboxes_csv rows ["all"] = rows.map row_to_migration
    ∧ (f ≠ ["all"] → parse_mailboxes_csv rows f =
        (rows.map row_to_migration).filter
          (fun m => decide (m.old.username ∈ f))) := by
  constructor
  · rw [parse_mailboxes_csv_eq_filter]
    simp
  · intro hf
    rw [parse_mailboxes_csv_eq_filter]
    apply List.filter_congr
    intro m _
    simp [hf]

theorem c3_name_filter_witness :
    parse_mailboxes_csv [row_ex, row_ex2] ["bob"] =
      ([row_ex, row_ex2].map row_to_migration).filter
        (fun m => decide (m.old.username ∈ (["bob"] : List String))) :=
  (c3_name_filter [row_ex, row_ex2] ["bob"]).2 (by decide)

/-- C5: the per-user directory mapping is the pure function replacing
every `@` by `_at_` (identity on `@`-free strings, homomorphic across an
`@`), and backup and restore apply the identical mapping to the old
username, so the directory restore searches resolves (through `abspath`)
to exactly the directory backup created under the same root. -/
theorem c5_directory_mapping :
    (∀ u : String, (∀ c ∈ u.data, c ≠ '@') → pyReplaceAt u = u)
    ∧ (∀ a b : String,
        pyReplaceAt (a ++ "@" ++ b) = pyReplaceAt a ++ "_at_" ++ pyReplaceAt b)
    ∧ (∀ cwd root u, backup_user_output_dir cwd root u =
        osAbspath cwd (restore_user_backup_dir root u)) := by
  refine ⟨fun u h => ?_, fun a b => ?_, fun cwd root u => rfl⟩
  · cases u with
  | mk l =>
    apply String.ext
    simp only [pyReplaceAt]
    induction l with
    | nil => rfl
    | cons c cs ih =>
      have hc : c ≠ '@' := h c (by simp)
      simp only [List.flatMap_cons, if_neg hc]
      have := ih (fun x hx => h x (by simp [hx]))
      simp_all
  · apply String.ext
    simp [pyReplaceAt, String.data_append, List.flatMap_append]

theorem c5_directory_mapping_witness :
    pyReplaceAt "alice" = "alice"
    ∧ pyReplaceAt ("alice" ++ "@" ++ "x.com") =
        pyReplaceAt "alice" ++ "_at_" ++ pyReplaceAt "x.com"
    ∧ backup_user_output_dir "/cwd" "backups" "alice@x.com" =
        osAbspath "/cwd" (restore_user_backup_dir "backups" "alice@x.com") :=
  ⟨c5_directory_mapping.1 "alice" (by decide),
   c5_directory_mapping.2.1 "alice" "x.com",
   c5_directory_mapping.2.2 "/cwd" "backups" "alice@x.com"⟩

/-- C7: a pair with empty destination username or empty destination host
is skipped silently — no upload call, no log event, not processed, not
successful — and removing it from the migration list does not change the
result of `restore_mailboxes` at all (every other pair is processed the
same way). -/
theorem c7_silent_skip (env : RestoreEnv) (backup_dir : String) (m : Migration)
    (h : m.new.username = "" ∨ m.new.host = "") :
    restore_pair env backup_dir m = some (false, false, Trace.nil)
    ∧ ∀ rest, restore_mailboxes env (m :: rest) backup_dir =
        restore_mailboxes env rest backup_dir := by
  have h1 : restore_pair env backup_dir m = some (false, false, Trace.nil) := by
    simp [restore_pair, h]
  refine ⟨h1, fun rest => ?_⟩
  simp only [restore_mailboxes, h1]
  cases hr : restore_mailboxes env rest backup_dir with
  | none => rfl
  | some p =>
    cases p with
    | mk succ tr => simp [trace_nil_append]

theorem c7_silent_skip_witness :
    restore_pair env_ok "backups" mig_skip = some (false, false, Trace.nil)
    ∧ restore_mailboxes env_ok [mig_skip] "backups" =
        restore_mailboxes env_ok [] "backups" := by
  have h := c7_silent_skip env_ok "backups" mig_skip (Or.inl rfl)
  exact ⟨h.1, h.2 []⟩

theorem take_drop_mbox (xs : List Char) :
    (xs ++ ".mbox".data).take ((xs ++ ".mbox".data).length - 5) = xs := by
  rw [List.length_append]
  rw [show (".mbox".data).length = 5 from rfl]
  rw [show xs.length + 5 - 5 = xs.length from by omega]
  exact List.take_left xs _

theorem slice_rel_under (P f : String) (hf : pyEndsWith f ".mbox" = true) :
    pySliceDropRight (rel_under P f) 5 = rel_under P (pySliceDropRight f 5) := by
  obtain ⟨l, hl⟩ := List.isSuffixOf_iff_suffix.mp hf
  have hslice : pySliceDropRight f 5 = String.mk l := by
    simp only [pySliceDropRight]
    rw [← hl, take_drop_mbox]
  by_cases hP : P = ""
  · simp [rel_under, hP]
  · simp only [rel_under, if_neg hP, hslice]
    by_cases hH : f.data.head? = some '/'
    · have hlne : l ≠ [] := by
        intro h0
        rw [h0, List.nil_append] at hl
        rw [← hl] at hH
        simp at hH
      have hHl : (String.mk l).data.head? = some '/' := by
        rw [← hl, List.head?_append_of_ne_nil l hlne] at hH
        exact hH
      simp only [osJoin, if_pos hH, if_pos hHl]
      exact hslice
    · have hHl : ¬ (String.mk l).data.head? = some '/' := by
        intro hc
        rcases List.eq_nil_or_concat l with h0 | _
        · rw [h0] at hc
          simp at hc
        · apply hH
          rw [← hl]
          have hlne : l ≠ [] := by
            intro h0
            rw [h0] at hc
            simp at hc
          rw [List.head?_append_of_ne_nil l hlne]
          exact hc
      by_cases hL : P.data.getLast? = some '/'
      · simp only [osJoin, if_neg hH, if_neg hHl, if_neg hP, if_pos hL]
        simp only [pySliceDropRight]
        rw [← hl, ← List.append_assoc, take_drop_mbox]
      · simp only [osJoin, if_neg hH, if_neg hHl, if_neg hP, if_neg hL]
        simp only [pySliceDropRight]
        rw [← hl]
        rw [show P.data ++ '/' :: (l ++ ".mbox".data) =
          (P.data ++ '/' :: l) ++ ".mbox".data from by simp]
        rw [take_drop_mbox]

/-- C4: for a backed-up file at relative position `P` with name
`filename.mbox`, the destination IMAP folder path derived by the restore
step is exactly the relative path with the 5-character `.mbox` suffix
stripped and separators preserved (`P/filename`), and a file whose name
does not end in `.mbox` triggers no upload call at all. -/
theorem c4_restore_folder_path :
    (∀ P f, pyEndsWith f ".mbox" = true →
      pySliceDropRight (rel_under P f) 5 = rel_under P (pySliceDropRight f 5))
    ∧ (∀ env m udir P f, pyEndsWith f ".mbox" = false →
      restore_files env m udir P [f] = some (Trace.nil, true)) := by
  constructor
  · exact fun P f hf => slice_rel_under P f hf
  · intro env m udir P f hf
    simp [restore_files, hf]

theorem c4_restore_folder_path_witness :
    pySliceDropRight (rel_under "INBOX" "Sent.mbox") 5 =
      rel_under "INBOX" (pySliceDropRight "Sent.mbox" 5)
    ∧ pySliceDropRight (rel_under "" "INBOX.mbox") 5 =
      rel_under "" (pySliceDropRight "INBOX.mbox" 5)
    ∧ restore_files env_ok mig_ex "backups/alice_at_x" "INBOX" ["notes.txt"] =
      some (Trace.nil, true) :=
  ⟨c4_restore_folder_path.1 "INBOX" "Sent.mbox" (by decide),
   c4_restore_folder_path.1 "" "INBOX.mbox" (by decide),
   c4_restore_folder_path.2 env_ok mig_ex "backups/alice_at_x" "INBOX"
     "notes.txt" (by decide)⟩

theorem restore_file_step_spec (env : RestoreEnv) (m : Migration)
    (udir rel f : String) (tr : Trace) (rc : Int)
    (h : restore_file_step env m udir rel f = some (tr, rc)) :
    ∃ cmdl, tr = Trace.mk [LogEvent.debug (maskNeg cmdl 4)] [cmdl] []
      ∧ rc = env.call cmdl := by
  simp only [restore_file_step, Option.map_eq_some'] at h
  obtain ⟨cmdl, _, heq⟩ := h
  cases heq
  exact ⟨cmdl, rfl, rfl⟩

theorem restore_files_ok_iff (env : RestoreEnv) (m : Migration)
    (udir rel : String) (fs : List String) (tr : Trace) (ok : Bool)
    (h : restore_files env m udir rel fs = some (tr, ok)) :
    ok = true ↔ ∀ c ∈ tr.calls, env.call c = 0 := by
  induction fs generalizing tr ok with
  | nil =>
    simp only [restore_files] at h
    cases h
    simp [Trace.nil]
  | cons f fs ih =>
    simp only [restore_files] at h
    by_cases hf : pyEndsWith f ".mbox" = true
    · rw [if_pos hf] at h
      cases hs : restore_file_step env m udir rel f with
      | none => rw [hs] at h; cases h
      | some pr =>
        obtain ⟨tr1, rc⟩ := pr
        rw [hs] at h
        cases hr : restore_files env m udir rel fs with
        | none => rw [hr] at h; cases h
        | some pr2 =>
          obtain ⟨tr2, ok2⟩ := pr2
          rw [hr] at h
          cases h
          obtain ⟨cmdl, htr, hrc⟩ := restore_file_step_spec env m udir rel f tr1 rc hs
          subst htr
          subst hrc
          have ih2 := ih tr2 ok2 hr
          constructor
          · intro hok c hc
            simp only [Bool.and_eq_true, decide_eq_true_eq] at hok
            simp only [Trace.append, List.mem_append, List.mem_singleton] at hc
            rcases hc with hc | hc
            · rw [hc]
              exact hok.1
            · exact ih2.mp hok.2 c hc
          · intro hall
            simp only [Bool.and_eq_true, decide_eq_true_eq]
            refine ⟨hall cmdl (by simp [Trace.append]), ih2.mpr ?_⟩
            intro c hc
            exact hall c (by simp [Trace.append, hc])
    · rw [if_neg hf] at h
      exact ih tr ok h

theorem restore_walk_dirs_ok_iff (env : RestoreEnv) (m : Migration)
    (udir : String) (ds : List (String × List String)) (tr : Trace) (ok : Bool)
    (h : restore_walk_dirs env m udir ds = some (tr, ok)) :
    ok = true ↔ ∀ c ∈ tr.calls, env.call c = 0 := by
  induction ds generalizing tr ok with
  | nil =>
    simp only [restore_walk_dirs] at h
    cases h
    simp [Trace.nil]
  | cons d ds ih =>
    obtain ⟨rel, files⟩ := d
    simp only [restore_walk_dirs] at h
    cases hs : restore_files env m udir rel files with
    | none => rw [hs] at h; cases h
    | some pr =>
      obtain ⟨tr1, ok1⟩ := pr
      rw [hs] at h
      cases hr : restore_walk_dirs env m udir ds with
      | none => rw [hr] at h; cases h
      | some pr2 =>
        obtain ⟨tr2, ok2⟩ := pr2
        rw [hr] at h
        cases h
        have h1 := restore_files_ok_iff env m udir rel files tr1 ok1 hs
        have h2 := ih tr2 ok2 hr
        constructor
        · intro hok c hc
          simp only [Bool.and_eq_true] at hok
          simp only [Trace.append, List.mem_append] at hc
          rcases hc with hc | hc
          · exact h1.mp hok.1 c hc
          · exact h2.mp hok.2 c hc
        · intro hall
          simp only [Bool.and_eq_true]
          constructor
          · exact h1.mpr (fun c hc => hall c (by simp [Trace.append, hc]))
          · exact h2.mpr (fun c hc => hall c (by simp [Trace.append, hc]))

theorem restore_mailboxes_filter (env : RestoreEnv) (migs : List Migration)
    (dir : String) (succ : List Migration) (tr : Trace)
    (h : restore_mailboxes env migs dir = some (succ, tr)) :
    succ = migs.filter (fun m => restore_pair_ok env dir m) := by
  induction migs generalizing succ tr with
  | nil =>
    simp only [restore_mailboxes] at h
    cases h
    rfl
  | cons m rest ih =>
    simp only [restore_mailboxes] at h
    cases hp : restore_pair env dir m with
    | none => rw [hp] at h; cases h
    | some r =>
      obtain ⟨pr, ok, tr1⟩ := r
      rw [hp] at h
      cases hr : restore_mailboxes env rest dir with
      | none => rw [hr] at h; cases h
      | some r2 =>
        obtain ⟨succ2, tr2⟩ := r2
        rw [hr] at h
        cases h
        rw [List.filter_cons]
        have hok : restore_pair_ok env dir m = ok := by
          simp [restore_pair_ok, hp]
        rw [hok]
        cases ok <;> simp [ih succ2 tr2 hr]

theorem restore_file_step_call_free (env : RestoreEnv) (g : List String → Int)
    (m : Migration) (udir rel f : String) :
    (restore_file_step (RestoreEnv.mk env.pathExists env.walk g env.cwd)
        m udir rel f).map Prod.fst
      = (restore_file_step env m udir rel f).map Prod.fst := by
  simp only [restore_file_step]
  cases shlexSplit (restore_cmd_str m (pySliceDropRight (rel_under rel f) 5)
      (osAbspath env.cwd (osJoin (walk_root udir rel) f))) <;> rfl

theorem restore_files_call_free (env : RestoreEnv) (g : List String → Int)
    (m : Migration) (udir rel : String) (fs : List String) :
    (restore_files (RestoreEnv.mk env.pathExists env.walk g env.cwd)
        m udir rel fs).map Prod.fst
      = (restore_files env m udir rel fs).map Prod.fst := by
  induction fs with
  | nil => rfl
  | cons f fs ih =>
    simp only [restore_files]
    by_cases hf : pyEndsWith f ".mbox" = true
    · rw [if_pos hf, if_pos hf]
      have h1 := restore_file_step_call_free env g m udir rel f
      cases hs2 : restore_file_step (RestoreEnv.mk env.pathExists env.walk g env.cwd)
          m udir rel f with
      | none =>
        rw [hs2] at h1
        cases hs : restore_file_step env m udir rel f with
        | none => rfl
        | some pr => rw [hs] at h1; cases h1
      | some pr2 =>
        rw [hs2] at h1
        cases hs : restore_file_step env m udir rel f with
        | none => rw [hs] at h1; cases h1
        | some pr =>
          rw [hs] at h1
          simp only [Option.map_some'] at h1
          cases h1impl : pr2 with
          | mk tr2 rc2 =>
            cases pr with
            | mk tr rc =>
              have htr : tr2 = tr := by
                rw [h1impl] at h1
                simpa using h1
              subst htr
              subst h1impl
              have ih2 := ih
              cases hr2 : restore_files (RestoreEnv.mk env.pathExists env.walk g env.cwd)
                  m udir rel fs with
              | none =>
                rw [hr2] at ih2
                cases hr : restore_files env m udir rel fs with
                | none => rfl
                | some q => rw [hr] at ih2; cases ih2
              | some q2 =>
                rw [hr2] at ih2
                cases hr : restore_files env m udir rel fs with
                | none => rw [hr] at ih2; cases ih2
                | some q =>
                  rw [hr] at ih2
                  simp only [Option.map_some', Option.some_inj] at ih2
                  simp [ih2]
    · rw [if_neg hf, if_neg hf]
      exact ih

theorem restore_walk_dirs_call_free (env : RestoreEnv) (g : List String → Int)
    (m : Migration) (udir : String) (ds : List (String × List String)) :
    (restore_walk_dirs (RestoreEnv.mk env.pathExists env.walk g env.cwd)
        m udir ds).map Prod.fst
      = (restore_walk_dirs env m udir ds).map Prod.fst := by
  induction ds with
  | nil => rfl
  | cons d ds ih =>
    obtain ⟨rel, files⟩ := d
    simp only [restore_walk_dirs]
    have h1 := restore_files_call_free env g m udir rel files
    cases hs2 : restore_files (RestoreEnv.mk env.pathExists env.walk g env.cwd)
        m udir rel files with
    | none =>
      rw [hs2] at h1
      cases hs : restore_files env m udir rel files with
      | none => rfl
      | some pr => rw [hs] at h1; cases h1
    | some pr2 =>
      rw [hs2] at h1
      cases hs : restore_files env m udir rel files with
      | none => rw [hs] at h1; cases h1
      | some pr =>
        rw [hs] at h1
        simp only [Option.map_some'] at h1
        obtain ⟨tr2, ok2⟩ := pr2
        obtain ⟨tr, ok⟩ := pr
        rw [Option.some_inj] at h1
        simp only at h1
        subst h1
        cases hr2 : restore_walk_dirs (RestoreEnv.mk env.pathExists env.walk g env.cwd)
            m udir ds with
        | none =>
          rw [hr2] at ih
          cases hr : restore_walk_dirs env m udir ds with
          | none => rfl
          | some q => rw [hr] at ih; cases ih
        | some q2 =>
          rw [hr2] at ih
          cases hr : restore_walk_dirs env m udir ds with
          | none => rw [hr] at ih; cases ih
          | some q =>
            rw [hr] at ih
            simp only [Option.map_some', Option.some_inj] at ih
            simp [ih]

theorem restore_pair_call_free (env : RestoreEnv) (g : List String → Int)
    (dir : String) (m : Migration) :
    (restore_pair (RestoreEnv.mk env.pathExists env.walk g env.cwd) dir m).map
        (fun r => r.2.2)
      = (restore_pair env dir m).map (fun r => r.2.2) := by
  simp only [restore_pair]
  by_cases hc : m.new.username = "" ∨ m.new.host = ""
  · rw [if_pos hc, if_pos hc]
  · rw [if_neg hc, if_neg hc]
    by_cases he : env.pathExists (restore_user_backup_dir dir m.old.username) = true
    · simp only [he, if_true]
      have h1 := restore_walk_dirs_call_free env g m
        (restore_user_backup_dir dir m.old.username)
        (env.walk (restore_user_backup_dir dir m.old.username))
      cases hs2 : restore_walk_dirs (RestoreEnv.mk env.pathExists env.walk g env.cwd)
          m (restore_user_backup_dir dir m.old.username)
          (env.walk (restore_user_backup_dir dir m.old.username)) with
      | none =>
        rw [hs2] at h1
        cases hs : restore_walk_dirs env m (restore_user_backup_dir dir m.old.username)
            (env.walk (restore_user_backup_dir dir m.old.username)) with
        | none => simp only [hs2, hs]
        | some pr => rw [hs] at h1; cases h1
      | some pr2 =>
        rw [hs2] at h1
        cases hs : restore_walk_dirs env m (restore_user_backup_dir dir m.old.username)
            (env.walk (restore_user_backup_dir dir m.old.username)) with
        | none => rw [hs] at h1; cases h1
        | some pr =>
          rw [hs] at h1
          simp only [Option.map_some'] at h1
          obtain ⟨tr2, ok2⟩ := pr2
          obtain ⟨tr, ok⟩ := pr
          rw [Option.some_inj] at h1
          simp only at h1
          subst h1
          simp only [hs2, hs]
          rfl
    · simp [he]

theorem restore_pair_processed (env : RestoreEnv) (dir : String) (m : Migration)
    (pr ok : Bool) (tr : Trace)
    (h : restore_pair env dir m = some (pr, ok, tr)) (hpr : pr = true) :
    ok = true ↔ ∀ c ∈ tr.calls, env.call c = 0 := by
  simp only [restore_pair] at h
  by_cases hc : m.new.username = "" ∨ m.new.host = ""
  · rw [if_pos hc] at h
    cases h
    cases hpr
  · rw [if_neg hc] at h
    by_cases he : env.pathExists (restore_user_backup_dir dir m.old.username) = true
    · rw [if_pos he] at h
      cases hw : restore_walk_dirs env m (restore_user_backup_dir dir m.old.username)
          (env.walk (restore_user_backup_dir dir m.old.username)) with
      | none => rw [hw] at h; cases h
      | some p =>
        obtain ⟨wtr, wok⟩ := p
        rw [hw] at h
        cases h
        have h2 := restore_walk_dirs_ok_iff env m
          (restore_user_backup_dir dir m.old.username)
          (env.walk (restore_user_backup_dir dir m.old.username)) _ _ hw
        simpa [Trace.append] using h2
    · rw [if_neg he] at h
      cases h
      cases hpr

/-- C6: a processed pair succeeds exactly when every upload it issued
returned exit status zero; membership in the success list of
`restore_mailboxes` is exactly input membership plus that criterion; the
set of issued commands is independent of the exit statuses (one failing
upload does not stop the remaining files); and one pair's outcome only
prepends to — never aborts — the processing of the remaining pairs. -/
theorem c6_restore_success_criterion :
    (∀ env dir m pr ok tr, restore_pair env dir m = some (pr, ok, tr) →
      pr = true → (ok = true ↔ ∀ c ∈ tr.calls, env.call c = 0))
    ∧ (∀ env migs dir succ tr,
        restore_mailboxes env migs dir = some (succ, tr) →
        ∀ m, m ∈ succ ↔ m ∈ migs ∧ restore_pair_ok env dir m = true)
    ∧ (∀ env g dir m,
        (restore_pair (RestoreEnv.mk env.pathExists env.walk g env.cwd) dir m).map
            (fun r => r.2.2)
          = (restore_pair env dir m).map (fun r => r.2.2))
    ∧ (∀ env dir m rest pr ok tr, restore_pair env dir m = some (pr, ok, tr) →
        restore_mailboxes env (m :: rest) dir =
          (restore_mailboxes env rest dir).map
            (fun r => ((if ok = true then m :: r.1 else r.1), tr.append r.2))) := by
  refine ⟨restore_pair_processed, ?_, restore_pair_call_free, ?_⟩
  · intro env migs dir succ tr h m
    rw [restore_mailboxes_filter env migs dir succ tr h]
    simp [List.mem_filter]
  · intro env dir m rest pr ok tr h
    simp only [restore_mailboxes, h]
    cases hr : restore_mailboxes env rest dir with
    | none => rfl
    | some r =>
      obtain ⟨succ2, tr2⟩ := r
      simp

theorem c6_restore_success_criterion_witness :
    (true = true ↔ ∀ c ∈ (Trace.mk
      [LogEvent.info "Restoring old alice to new alice2"]
      ([] : List (List String)) ([] : List String)).calls,
        env_empty.call c = 0) :=
  c6_restore_success_criterion.1 env_empty "backups" mig_ex true true _ rfl rfl

theorem list_step_opt (call : List String → Int) (mb : Mailbox)
    (mbOk : Option Mailbox) (tr : Trace)
    (h : list_step call mb = some (mbOk, tr)) : mbOk = some mb ∨ mbOk = none := by
  simp only [list_step, Option.map_eq_some'] at h
  obtain ⟨cmdl, _, heq⟩ := h
  cases heq
  by_cases hrc : call cmdl = 0 <;> simp [hrc]

theorem backup_step_opt (call : List String → Int) (cwd odir : String)
    (mb : Mailbox) (mbOk : Option Mailbox) (tr : Trace)
    (h : backup_step call cwd odir mb = some (mbOk, tr)) :
    mbOk = some mb ∨ mbOk = none := by
  simp only [backup_step, Option.map_eq_some'] at h
  obtain ⟨cmdl, _, heq⟩ := h
  cases heq
  by_cases hrc : call cmdl = 0 <;> simp [hrc]

theorem list_mailboxes_sublist (call : List String → Int)
    (migs : List Migration) (t : String) (succ : List Mailbox) (tr : Trace)
    (h : list_mailboxes call migs t = some (succ, tr)) :
    List.Sublist succ (migs.map (fun mg => mg.attr t)) := by
  induction migs generalizing succ tr with
  | nil =>
    simp only [list_mailboxes] at h
    cases h
    simp
  | cons mg rest ih =>
    simp only [list_mailboxes] at h
    cases hs : list_step call (mg.attr t) with
    | none => rw [hs] at h; cases h
    | some p =>
      obtain ⟨mbOk, tr1⟩ := p
      rw [hs] at h
      cases hr : list_mailboxes call rest t with
      | none => rw [hr] at h; cases h
      | some r =>
        obtain ⟨succ2, tr2⟩ := r
        rw [hr] at h
        cases h
        rcases list_step_opt call (mg.attr t) mbOk tr1 hs with h1 | h1 <;> subst h1
        · exact List.Sublist.cons₂ (mg.attr t) (ih succ2 tr2 hr)
        · exact List.Sublist.cons (mg.attr t) (ih succ2 tr2 hr)

theorem backup_mailboxes_sublist (call : List String → Int) (cwd : String)
    (migs : List Migration) (odir : String) (succ : List Mailbox) (tr : Trace)
    (h : backup_mailboxes call cwd migs odir = some (succ, tr)) :
    List.Sublist succ (migs.map (fun mg => mg.old)) := by
  induction migs generalizing succ tr with
  | nil =>
    simp only [backup_mailboxes] at h
    cases h
    simp
  | cons mg rest ih =>
    simp only [backup_mailboxes] at h
    cases hs : backup_step call cwd odir mg.old with
    | none => rw [hs] at h; cases h
    | some p =>
      obtain ⟨mbOk, tr1⟩ := p
      rw [hs] at h
      cases hr : backup_mailboxes call cwd rest odir with
      | none => rw [hr] at h; cases h
      | some r =>
        obtain ⟨succ2, tr2⟩ := r
        rw [hr] at h
        cases h
        rcases backup_step_opt call cwd odir mg.old mbOk tr1 hs with h1 | h1 <;>
          subst h1
        · exact List.Sublist.cons₂ mg.old (ih succ2 tr2 hr)
        · exact List.Sublist.cons mg.old (ih succ2 tr2 hr)

/-- C10: the success list returned by each operation is an
order-preserving subsequence of the processed inputs — of the selected
mailboxes for `list_mailboxes`, of the old mailboxes for
`backup_mailboxes`, and of the migrations themselves for
`restore_mailboxes`; no element is invented, reordered or mutated. -/
theorem c10_success_sublist :
    (∀ call migs t succ tr, list_mailboxes call migs t = some (succ, tr) →
      List.Sublist succ (migs.map (fun mg => mg.attr t)))
    ∧ (∀ call cwd migs odir succ tr,
        backup_mailboxes call cwd migs odir = some (succ, tr) →
        List.Sublist succ (migs.map (fun mg => mg.old)))
    ∧ (∀ env migs dir succ tr, restore_mailboxes env migs dir = some (succ, tr) →
        List.Sublist succ migs) := by
  refine ⟨list_mailboxes_sublist, backup_mailboxes_sublist, ?_⟩
  intro env migs dir succ tr h
  rw [restore_mailboxes_filter env migs dir succ tr h]
  exact List.filter_sublist migs

theorem c10_success_sublist_witness :
    List.Sublist [mig_ex.old] ([mig_ex].map (fun mg => mg.attr "old"))
    ∧ List.Sublist [mig_ex.old] ([mig_ex].map (fun mg => mg.old))
    ∧ List.Sublist [mig_ex] [mig_ex] :=
  ⟨c10_success_sublist.1 (fun _ => 0) [mig_ex] "old" [mig_ex.old] _ rfl,
   c10_success_sublist.2.1 (fun _ => 0) "/cwd" [mig_ex] "backups" [mig_ex.old] _ rfl,
   c10_success_sublist.2.2 env_empty [mig_ex] "backups" [mig_ex] _ rfl⟩

theorem emitTok_ne (tok : List Char) (q : Bool) (acc : List (List Char))
    (hne : tok ≠ [] ∨ q = true) : emitTok tok q acc = acc ++ [tok] := by
  cases q with
  | true => simp [emitTok]
  | false =>
    rcases hne with hne | hq
    · simp [emitTok, hne]
    · cases hq

theorem plain_run_word (cs : List Char) (h : ∀ c ∈ cs, charClass c = CClass.plain)
    (rest tok : List Char) (q : Bool) (acc : List (List Char)) :
    shlexRun SState.word (cs ++ rest) tok q acc
      = shlexRun SState.word rest (tok ++ cs) q acc := by
  induction cs generalizing tok with
  | nil => simp
  | cons c cs ih =>
    have hc : charClass c = CClass.plain := h c (by simp)
    simp only [List.cons_append, shlexRun, hc, List.append_eq]
    rw [ih (fun x hx => h x (by simp [hx])) (tok ++ [c])]
    simp

theorem dqsafe_run (cs : List Char)
    (h : ∀ c ∈ cs, charClass c ≠ CClass.dquote ∧ charClass c ≠ CClass.backslash)
    (rest tok : List Char) (q : Bool) (acc : List (List Char)) :
    shlexRun SState.dquote (cs ++ rest) tok q acc
      = shlexRun SState.dquote rest (tok ++ cs) q acc := by
  induction cs generalizing tok with
  | nil => simp
  | cons c cs ih =>
    obtain ⟨h1, h2⟩ := h c (by simp)
    have step : shlexRun SState.dquote ((c :: cs) ++ rest) tok q acc
        = shlexRun SState.dquote (cs ++ rest) (tok ++ [c]) q acc := by
      cases hcc : charClass c with
      | dquote => exact absurd hcc h1
      | backslash => exact absurd hcc h2
      | ws => simp only [List.cons_append, shlexRun, hcc, List.append_eq]
      | squote => simp only [List.cons_append, shlexRun, hcc, List.append_eq]
      | plain => simp only [List.cons_append, shlexRun, hcc, List.append_eq]
    rw [step, ih (fun x hx => h x (by simp [hx])) (tok ++ [c])]
    simp

theorem plain_run_from_blank (cs : List Char) (hne : cs ≠ [])
    (h : ∀ c ∈ cs, charClass c = CClass.plain) (rest : List Char)
    (acc : List (List Char)) :
    shlexRun SState.blank (cs ++ rest) [] false acc
      = shlexRun SState.word rest cs false acc := by
  cases cs with
  | nil => exact absurd rfl hne
  | cons c cs2 =>
    have hc : charClass c = CClass.plain := h c (by simp)
    simp only [List.cons_append, shlexRun, hc, List.append_eq]
    rw [plain_run_word cs2 (fun x hx => h x (by simp [hx])) rest ([] ++ [c])]
    simp

theorem ws_emit_word (c : Char) (hc : charClass c = CClass.ws)
    (cs tok : List Char) (q : Bool) (acc : List (List Char))
    (hne : tok ≠ [] ∨ q = true) :
    shlexRun SState.word (c :: cs) tok q acc
      = shlexRun SState.blank cs [] false (acc ++ [tok]) := by
  simp only [shlexRun, hc]
  rw [emitTok_ne tok q acc hne]

theorem list_seg_start (rest : List Char) :
    shlexRun SState.blank ("imapbackup/imapgrab.py -l -s ".data ++ rest) [] false []
      = shlexRun SState.blank rest [] false
        ["imapbackup/imapgrab.py".data, "-l".data, "-s".data] := rfl

theorem list_seg_u (tok : List Char) (hne : tok ≠ []) (rest : List Char)
    (acc : List (List Char)) :
    shlexRun SState.word (" -u \"".data ++ rest) tok false acc
      = shlexRun SState.dquote rest [] true ((acc ++ [tok]) ++ ["-u".data]) := by
  have h1 : (" -u \"".data) ++ rest = ' ' :: ("-u \"".data ++ rest) := rfl
  rw [h1, ws_emit_word ' ' (by decide) _ tok false acc (Or.inl hne)]
  rfl

theorem list_seg_p (tok rest : List Char) (acc : List (List Char)) :
    shlexRun SState.dquote ("\" -p \"".data ++ rest) tok true acc
      = shlexRun SState.dquote rest [] true ((acc ++ [tok]) ++ ["-p".data]) := rfl

theorem list_seg_end (tok : List Char) (acc : List (List Char)) :
    shlexRun SState.dquote ("\"".data) tok true acc = some (acc ++ [tok]) := rfl

theorem shlex_list_cmd (mb : Mailbox) (hh : PlainTok mb.host)
    (hu : DqSafe mb.username) (hp : DqSafe mb.password) :
    shlexSplit (list_cmd_str mb) = some ["imapbackup/imapgrab.py", "-l", "-s",
      mb.host, "-u", mb.username, "-p", mb.password] := by
  obtain ⟨hne, hpl⟩ := hh
  have e : (list_cmd_str mb).data
      = "imapbackup/imapgrab.py -l -s ".data ++ (mb.host.data ++ (" -u \"".data ++
        (mb.username.data ++ ("\" -p \"".data ++ (mb.password.data ++ "\"".data))))) := by
    simp [list_cmd_str, String.data_append]
  unfold shlexSplit
  rw [e, list_seg_start, plain_run_from_blank mb.host.data hne hpl,
    list_seg_u mb.host.data hne, dqsafe_run mb.username.data hu,
    list_seg_p, dqsafe_run mb.password.data hp, list_seg_end]
  simp [string_mk_data]

theorem bseg_start_ssl (rest : List Char) :
    shlexRun SState.blank ("imapbackup/imapgrab.py -v -d ".data ++
        ("-S".data ++ (" -f \"".data ++ rest))) [] false []
      = shlexRun SState.dquote rest [] true
        ["imapbackup/imapgrab.py".data, "-v".data, "-d".data, "-S".data,
          "-f".data] := rfl

theorem bseg_start_nossl (rest : List Char) :
    shlexRun SState.blank ("imapbackup/imapgrab.py -v -d ".data ++
        (" -f \"".data ++ rest)) [] false []
      = shlexRun SState.dquote rest [] true
        ["imapbackup/imapgrab.py".data, "-v".data, "-d".data, "-f".data] := rfl

theorem bseg_s (tok rest : List Char) (acc : List (List Char)) :
    shlexRun SState.dquote ("\" -s \"".data ++ rest) tok true acc
      = shlexRun SState.dquote rest [] true ((acc ++ [tok]) ++ ["-s".data]) := rfl

theorem bseg_u (tok rest : List Char) (acc : List (List Char)) :
    shlexRun SState.dquote ("\" -u \"".data ++ rest) tok true acc
      = shlexRun SState.dquote rest [] true ((acc ++ [tok]) ++ ["-u".data]) := rfl

theorem bseg_p (tok rest : List Char) (acc : List (List Char)) :
    shlexRun SState.dquote ("\" -p \"".data ++ rest) tok true acc
      = shlexRun SState.dquote rest [] true ((acc ++ [tok]) ++ ["-p".data]) := rfl

theorem bseg_end (tok : List Char) (acc : List (List Char)) :
    shlexRun SState.dquote ("\" -m \"_ALL_\"".data) tok true acc
      = some (((acc ++ [tok]) ++ ["-m".data]) ++ ["_ALL_".data]) := rfl

theorem shlex_backup_cmd (mb : Mailbox) (dir : String) (hd : DqSafe dir)
    (hh : DqSafe mb.host) (hu : DqSafe mb.username) (hp : DqSafe mb.password) :
    shlexSplit (backup_cmd_str mb dir)
      = some (["imapbackup/imapgrab.py", "-v", "-d"] ++
          (if mb.use_ssl then ["-S"] else []) ++
          ["-f", dir, "-s", mb.host, "-u", mb.username, "-p", mb.password,
            "-m", "_ALL_"]) := by
  cases hssl : mb.use_ssl with
  | true =>
    have e : (backup_cmd_str mb dir).data
        = "imapbackup/imapgrab.py -v -d ".data ++ ("-S".data ++ (" -f \"".data ++
          (dir.data ++ ("\" -s \"".data ++ (mb.host.data ++ ("\" -u \"".data ++
          (mb.username.data ++ ("\" -p \"".data ++ (mb.password.data ++
          "\" -m \"_ALL_\"".data))))))))) := by
      simp [backup_cmd_str, hssl, String.data_append]
    unfold shlexSplit
    rw [e, bseg_start_ssl, dqsafe_run dir.data hd, bseg_s,
      dqsafe_run mb.host.data hh, bseg_u, dqsafe_run mb.username.data hu,
      bseg_p, dqsafe_run mb.password.data hp, bseg_end]
    simp [string_mk_data]
  | false =>
    have e : (backup_cmd_str mb dir).data
        = "imapbackup/imapgrab.py -v -d ".data ++ (" -f \"".data ++
          (dir.data ++ ("\" -s \"".data ++ (mb.host.data ++ ("\" -u \"".data ++
          (mb.username.data ++ ("\" -p \"".data ++ (mb.password.data ++
          "\" -m \"_ALL_\"".data)))))))) := by
      simp [backup_cmd_str, hssl, String.data_append]
    unfold shlexSplit
    rw [e, bseg_start_nossl, dqsafe_run dir.data hd, bseg_s,
      dqsafe_run mb.host.data hh, bseg_u, dqsafe_run mb.username.data hu,
      bseg_p, dqsafe_run mb.password.data hp, bseg_end]
    simp [string_mk_data]

theorem rseg_start_ssl (rest : List Char) :
    shlexRun SState.blank ("imap_upload/imap_upload.py --retry 3 ".data ++
        ("--ssl".data ++ (" --host \"".data ++ rest))) [] false []
      = shlexRun SState.dquote rest [] true
        ["imap_upload/imap_upload.py".data, "--retry".data, "3".data,
          "--ssl".data, "--host".data] := rfl

theorem rseg_start_nossl (rest : List Char) :
    shlexRun SState.blank ("imap_upload/imap_upload.py --retry 3 ".data ++
        (" --host \"".data ++ rest)) [] false []
      = shlexRun SState.dquote rest [] true
        ["imap_upload/imap_upload.py".data, "--retry".data, "3".data,
          "--host".data] := rfl

theorem rseg_port (tok rest : List Char) (acc : List (List Char)) :
    shlexRun SState.dquote ("\" --port ".data ++ rest) tok true acc
      = shlexRun SState.blank rest [] false ((acc ++ [tok]) ++ ["--port".data]) := rfl

theorem rseg_user (tok : List Char) (hne : tok ≠ []) (rest : List Char)
    (acc : List (List Char)) :
    shlexRun SState.word (" --user \"".data ++ rest) tok false acc
      = shlexRun SState.dquote rest [] true ((acc ++ [tok]) ++ ["--user".data]) := by
  have h1 : (" --user \"".data) ++ rest = ' ' :: ("--user \"".data ++ rest) := rfl
  rw [h1, ws_emit_word ' ' (by decide) _ tok false acc (Or.inl hne)]
  rfl

theorem rseg_pass (tok rest : List Char) (acc : List (List Char)) :
    shlexRun SState.dquote ("\" --password \"".data ++ rest) tok true acc
      = shlexRun SState.dquote rest [] true ((acc ++ [tok]) ++ ["--password".data]) := rfl

theorem rseg_box (tok rest : List Char) (acc : List (List Char)) :
    shlexRun SState.dquote ("\" --box \"".data ++ rest) tok true acc
      = shlexRun SState.dquote rest [] true ((acc ++ [tok]) ++ ["--box".data]) := rfl

theorem rseg_file (tok rest : List Char) (acc : List (List Char)) :
    shlexRun SState.dquote ("\" \"".data ++ rest) tok true acc
      = shlexRun SState.dquote rest [] true (acc ++ [tok]) := rfl

theorem shlex_restore_cmd (m : Migration) (box file : String)
    (hh : DqSafe m.new.host) (hpo : PlainTok m.new.port)
    (hu : DqSafe m.new.username) (hp : DqSafe m.new.password)
    (hb : DqSafe box) (hf : DqSafe file) :
    shlexSplit (restore_cmd_str m box file)
      = some (["imap_upload/imap_upload.py", "--retry", "3"] ++
          (if m.new.use_ssl then ["--ssl"] else []) ++
          ["--host", m.new.host, "--port", m.new.port, "--user",
            m.new.username, "--password", m.new.password, "--box", box,
            file]) := by
  obtain ⟨hpne, hppl⟩ := hpo
  cases hssl : m.new.use_ssl with
  | true =>
    have e : (restore_cmd_str m box file).data
        = "imap_upload/imap_upload.py --retry 3 ".data ++ ("--ssl".data ++
          (" --host \"".data ++ (m.new.host.data ++ ("\" --port ".data ++
          (m.new.port.data ++ (" --user \"".data ++ (m.new.username.data ++
          ("\" --password \"".data ++ (m.new.password.data ++
          ("\" --box \"".data ++ (box.data ++ ("\" \"".data ++
          (file.data ++ "\"".data))))))))))))) := by
      simp [restore_cmd_str, hssl, String.data_append]
    unfold shlexSplit
    rw [e, rseg_start_ssl, dqsafe_run m.new.host.data hh, rseg_port,
      plain_run_from_blank m.new.port.data hpne hppl,
      rseg_user m.new.port.data hpne, dqsafe_run m.new.username.data hu,
      rseg_pass, dqsafe_run m.new.password.data hp, rseg_box,
      dqsafe_run box.data hb, rseg_file, dqsafe_run file.data hf,
      list_seg_end]
    simp [string_mk_data]
  | false =>
    have e : (restore_cmd_str m box file).data
        = "imap_upload/imap_upload.py --retry 3 ".data ++
          (" --host \"".data ++ (m.new.host.data ++ ("\" --port ".data ++
          (m.new.port.data ++ (" --user \"".data ++ (m.new.username.data ++
          ("\" --password \"".data ++ (m.new.password.data ++
          ("\" --box \"".data ++ (box.data ++ ("\" \"".data ++
          (file.data ++ "\"".data)))))))))))) := by
      simp [restore_cmd_str, hssl, String.data_append]
    unfold shlexSplit
    rw [e, rseg_start_nossl, dqsafe_run m.new.host.data hh, rseg_port,
      plain_run_from_blank m.new.port.data hpne hppl,
      rseg_user m.new.port.data hpne, dqsafe_run m.new.username.data hu,
      rseg_pass, dqsafe_run m.new.password.data hp, rseg_box,
      dqsafe_run box.data hb, rseg_file, dqsafe_run file.data hf,
      list_seg_end]
    simp [string_mk_data]

theorem list_step_calls (call : List String → Int) (mb : Mailbox)
    (mbOk : Option Mailbox) (tr : Trace)
    (h : list_step call mb = some (mbOk, tr)) : tr.calls.length = 1 := by
  simp only [list_step, Option.map_eq_some'] at h
  obtain ⟨cmdl, _, heq⟩ := h
  cases heq
  rfl

/-- C8 (amended): `list_mailboxes` does not return early — its `return`
sits outside the loop, so every migration of the sequence gives rise to
exactly one listing invocation: the call trace has one entry per input
migration. -/
theorem c8_list_processes_all (call : List String → Int)
    (migs : List Migration) (t : String) (succ : List Mailbox) (tr : Trace)
    (h : list_mailboxes call migs t = some (succ, tr)) :
    tr.calls.length = migs.length := by
  induction migs generalizing succ tr with
  | nil =>
    simp only [list_mailboxes] at h
    cases h
    rfl
  | cons mg rest ih =>
    simp only [list_mailboxes] at h
    cases hs : list_step call (mg.attr t) with
    | none => rw [hs] at h; cases h
    | some p =>
      obtain ⟨mbOk, tr1⟩ := p
      rw [hs] at h
      cases hr : list_mailboxes call rest t with
      | none => rw [hr] at h; cases h
      | some r =>
        obtain ⟨succ2, tr2⟩ := r
        rw [hr] at h
        cases h
        have h1 := list_step_calls call (mg.attr t) mbOk tr1 hs
        simp [Trace.append, h1, ih succ2 tr2 hr]
        omega

theorem c8_list_processes_all_counterexample :
    (list_mailboxes (fun _ => 0) [mig_ex, mig_skip] "old").map
        (fun r => (r.1.length, r.2.calls.length)) = some (2, 2) := by
  decide

theorem c8_list_processes_all_witness :
    (Trace.mk
      [LogEvent.info "Listing mailbox alice",
       LogEvent.debug ["imapbackup/imapgrab.py", "-l", "-s",
         "imap.old.example", "-u", "alice", "-p", "******"]]
      [["imapbackup/imapgrab.py", "-l", "-s", "imap.old.example", "-u",
        "alice", "-p", "pw1"]] []).calls.length = [mig_ex].length :=
  c8_list_processes_all (fun _ => 0) [mig_ex] "old" [mig_ex.old] _ rfl

theorem c9_list_part (call : List String → Int) (mb : Mailbox)
    (hh : PlainTok mb.host) (hu : DqSafe mb.username) (hp : DqSafe mb.password) :
    (list_step call mb).map (fun r => (r.2.calls, r.2.debugArgs))
      = some ([["imapbackup/imapgrab.py", "-l", "-s", mb.host, "-u",
          mb.username, "-p", mb.password]],
        [["imapbackup/imapgrab.py", "-l", "-s", mb.host, "-u", mb.username,
          "-p", "******"]]) := by
  simp only [list_step, shlex_list_cmd mb hh hu hp, Option.map_some']
  rfl

theorem c9_backup_part (call : List String → Int) (cwd odir : String)
    (mb : Mailbox)
    (hd : DqSafe (backup_user_output_dir cwd odir mb.username))
    (hh : DqSafe mb.host) (hu : DqSafe mb.username) (hp : DqSafe mb.password) :
    (backup_step call cwd odir mb).map (fun r => (r.2.calls, r.2.debugArgs))
      = some ([["imapbackup/imapgrab.py", "-v", "-d"] ++
          (if mb.use_ssl then ["-S"] else []) ++
          ["-f", backup_user_output_dir cwd odir mb.username, "-s", mb.host,
            "-u", mb.username, "-p", mb.password, "-m", "_ALL_"]],
        [["imapbackup/imapgrab.py", "-v", "-d"] ++
          (if mb.use_ssl then ["-S"] else []) ++
          ["-f", backup_user_output_dir cwd odir mb.username, "-s", mb.host,
            "-u", mb.username, "-p", "******", "-m", "_ALL_"]]) := by
  simp only [backup_step, shlex_backup_cmd mb _ hd hh hu hp, Option.map_some']
  cases hb : mb.use_ssl <;> rfl

theorem c9_restore_part (env : RestoreEnv) (m : Migration)
    (udir rel f : String)
    (hh : DqSafe m.new.host) (hpo : PlainTok m.new.port)
    (hu : DqSafe m.new.username) (hp : DqSafe m.new.password)
    (hb : DqSafe (pySliceDropRight (rel_under rel f) 5))
    (hf : DqSafe (osAbspath env.cwd (osJoin (walk_root udir rel) f))) :
    (restore_file_step env m udir rel f).map (fun r => (r.1.calls, r.1.debugArgs))
      = some ([["imap_upload/imap_upload.py", "--retry", "3"] ++
          (if m.new.use_ssl then ["--ssl"] else []) ++
          ["--host", m.new.host, "--port", m.new.port, "--user",
            m.new.username, "--password", m.new.password, "--box",
            pySliceDropRight (rel_under rel f) 5,
            osAbspath env.cwd (osJoin (walk_root udir rel) f)]],
        [["imap_upload/imap_upload.py", "--retry", "3"] ++
          (if m.new.use_ssl then ["--ssl"] else []) ++
          ["--host", m.new.host, "--port", m.new.port, "--user",
            m.new.username, "--password", "******", "--box",
            pySliceDropRight (rel_under rel f) 5,
            osAbspath env.cwd (osJoin (walk_root udir rel) f)]]) := by
  simp only [restore_file_step, shlex_restore_cmd m _ _ hh hpo hu hp hb hf,
    Option.map_some']
  cases hb2 : m.new.use_ssl <;> rfl

/-- C9 (amended): when every substituted field is a single shlex token,
the executed and debug-logged argument lists of the three operations are
exactly as below — the logged list equals the executed list with the
password token replaced by `"******"` — and, provided the password also
differs from every other argument value of the invocation, the secret
occurs in no logged token.  (Without that proviso the secret can still
appear in the log, e.g. when the username equals the password.) -/
theorem c9_password_masking :
    (∀ call mb, PlainTok mb.host → DqSafe mb.username → DqSafe mb.password →
      ((list_step call mb).map (fun r => (r.2.calls, r.2.debugArgs))
        = some ([["imapbackup/imapgrab.py", "-l", "-s", mb.host, "-u",
            mb.username, "-p", mb.password]],
          [["imapbackup/imapgrab.py", "-l", "-s", mb.host, "-u", mb.username,
            "-p", "******"]]))
      ∧ (mb.password ≠ mb.host → mb.password ≠ mb.username →
        mb.password ∉ (["imapbackup/imapgrab.py", "-l", "-s", "-u", "-p",
          "******"] : List String) →
        mb.password ∉ ["imapbackup/imapgrab.py", "-l", "-s", mb.host, "-u",
          mb.username, "-p", "******"]))
    ∧ (∀ call cwd odir mb,
        DqSafe (backup_user_output_dir cwd odir mb.username) →
        DqSafe mb.host → DqSafe mb.username → DqSafe mb.password →
      ((backup_step call cwd odir mb).map (fun r => (r.2.calls, r.2.debugArgs))
        = some ([["imapbackup/imapgrab.py", "-v", "-d"] ++
            (if mb.use_ssl then ["-S"] else []) ++
            ["-f", backup_user_output_dir cwd odir mb.username, "-s", mb.host,
              "-u", mb.username, "-p", mb.password, "-m", "_ALL_"]],
          [["imapbackup/imapgrab.py", "-v", "-d"] ++
            (if mb.use_ssl then ["-S"] else []) ++
            ["-f", backup_user_output_dir cwd odir mb.username, "-s", mb.host,
              "-u", mb.username, "-p", "******", "-m", "_ALL_"]]))
      ∧ (mb.password ≠ backup_user_output_dir cwd odir mb.username →
        mb.password ≠ mb.host → mb.password ≠ mb.username →
        mb.password ∉ (["imapbackup/imapgrab.py", "-v", "-d", "-S", "-f",
          "-s", "-u", "-p", "-m", "_ALL_", "******"] : List String) →
        mb.password ∉ ["imapbackup/imapgrab.py", "-v", "-d"] ++
          (if mb.use_ssl then ["-S"] else []) ++
          ["-f", backup_user_output_dir cwd odir mb.username, "-s", mb.host,
            "-u", mb.username, "-p", "******", "-m", "_ALL_"]))
    ∧ (∀ env m udir rel f,
        DqSafe m.new.host → PlainTok m.new.port → DqSafe m.new.username →
        DqSafe m.new.password →
        DqSafe (pySliceDropRight (rel_under rel f) 5) →
        DqSafe (osAbspath env.cwd (osJoin (walk_root udir rel) f)) →
      ((restore_file_step env m udir rel f).map
          (fun r => (r.1.calls, r.1.debugArgs))
        = some ([["imap_upload/imap_upload.py", "--retry", "3"] ++
            (if m.new.use_ssl then ["--ssl"] else []) ++
            ["--host", m.new.host, "--port", m.new.port, "--user",
              m.new.username, "--password", m.new.password, "--box",
              pySliceDropRight (rel_under rel f) 5,
              osAbspath env.cwd (osJoin (walk_root udir rel) f)]],
          [["imap_upload/imap_upload.py", "--retry", "3"] ++
            (if m.new.use_ssl then ["--ssl"] else []) ++
            ["--host", m.new.host, "--port", m.new.port, "--user",
              m.new.username, "--password", "******", "--box",
              pySliceDropRight (rel_under rel f) 5,
              osAbspath env.cwd (osJoin (walk_root udir rel) f)]]))
      ∧ (m.new.password ≠ m.new.host → m.new.password ≠ m.new.port →
        m.new.password ≠ m.new.username →
        m.new.password ≠ pySliceDropRight (rel_under rel f) 5 →
        m.new.password ≠ osAbspath env.cwd (osJoin (walk_root udir rel) f) →
        m.new.password ∉ (["imap_upload/imap_upload.py", "--retry", "3",
          "--ssl", "--host", "--port", "--user", "--password", "--box",
          "******"] : List String) →
        m.new.password ∉ ["imap_upload/imap_upload.py", "--retry", "3"] ++
          (if m.new.use_ssl then ["--ssl"] else []) ++
          ["--host", m.new.host, "--port", m.new.port, "--user",
            m.new.username, "--password", "******", "--box",
            pySliceDropRight (rel_under rel f) 5,
            osAbspath env.cwd (osJoin (walk_root udir rel) f)])) := by
  refine ⟨?_, ?_, ?_⟩
  · intro call mb hh hu hp
    refine ⟨c9_list_part call mb hh hu hp, ?_⟩
    intro h1 h2 h3 hmem
    simp only [List.mem_cons, List.not_mem_nil, or_false] at hmem
    rcases hmem with h | h | h | h | h | h | h | h <;>
      first
        | exact h1 h
        | exact h2 h
        | exact h3 (by simp [h])
  · intro call cwd odir mb hd hh hu hp
    refine ⟨c9_backup_part call cwd odir mb hd hh hu hp, ?_⟩
    intro h0 h1 h2 h3
    simp only [List.mem_cons, List.not_mem_nil, or_false, not_or] at h3
    obtain ⟨ha, hb2, hc, hd2, he, hf2, hg, hi, hj, hk, hl⟩ := h3
    intro hmem
    cases hssl : mb.use_ssl <;>
    · rw [hssl] at hmem
      simp [h0, h1, h2, ha, hb2, hc, hd2, he, hf2, hg, hi, hj, hk, hl] at hmem
  · intro env m udir rel f hh hpo hu hp hb hf
    refine ⟨c9_restore_part env m udir rel f hh hpo hu hp hb hf, ?_⟩
    intro h1 h2 h3 h4 h5 h6
    simp only [List.mem_cons, List.not_mem_nil, or_false, not_or] at h6
    obtain ⟨ha, hb2, hc, hd2, he, hf2, hg, hi, hj, hk⟩ := h6
    intro hmem
    cases hssl : m.new.use_ssl <;>
    · rw [hssl] at hmem
      simp [h1, h2, h3, h4, h5, ha, hb2, hc, hd2, he, hf2, hg, hi, hj,
        hk] at hmem

theorem c9_password_masking_counterexample :
    (list_mailboxes (fun _ => 0) [mig_leak] "old").map (fun r => r.2.debugArgs)
      = some [["imapbackup/imapgrab.py", "-l", "-s", "h", "-u", "sekret0",
        "-p", "******"]]
    ∧ mig_leak.old.password = "sekret0"
    ∧ "sekret0" ∈ ["imapbackup/imapgrab.py", "-l", "-s", "h", "-u",
        "sekret0", "-p", "******"] :=
  ⟨by decide, rfl, by decide⟩

theorem c9_password_masking_witness :
    ((list_step (fun _ => 0) mig_ex.old).map (fun r => (r.2.calls, r.2.debugArgs))
      = some ([["imapbackup/imapgrab.py", "-l", "-s", "imap.old.example",
          "-u", "alice", "-p", "pw1"]],
        [["imapbackup/imapgrab.py", "-l", "-s", "imap.old.example", "-u",
          "alice", "-p", "******"]]))
    ∧ "pw1" ∉ ["imapbackup/imapgrab.py", "-l", "-s", "imap.old.example",
        "-u", "alice", "-p", "******"] := by
  have h := c9_password_masking.1 (fun _ => 0) mig_ex.old (by decide)
    (by decide) (by decide)
  exact ⟨h.1, h.2 (by decide) (by decide) (by decide)⟩
